import Mathlib

/-!
A verification development for `duplicacy-util.go`, a single-host backup
orchestrator.  The program's core pieces — the operation pipeline
(`performBackup`), the log rotation (`rotateLogFiles`), the run lock
(`obtainLock`) and the log sink (`logFMessage`) — are shallowly embedded
below as pure Lean functions.  External effects (the filesystem, the
external `duplicacy` process, the clock) are passed in explicitly: the
filesystem is a finite map from structured names to file contents, the
external tool is an oracle from argument vectors to success/failure, and
the current wall-clock time is a string parameter.
-/

namespace DuplicacyUtil

/-! ## Go maps

The configuration lists (`backupInfo`, `copyInfo`, `pruneInfo`,
`checkInfo`) are slices of `map[string]string` in the source.  A Go map
read `m["k"]` yields the zero value `""` for a missing key. -/

abbrev GoMap := List (String × String)

def mapGet (m : GoMap) (k : String) : String :=
  match m.find? (fun kv => kv.1 == k) with
  | some kv => kv.2
  | none => ""

/-! ## The model of Go `strings.Split(s, " ")`

`strings.Split` with a one-character separator splits around every
occurrence of that exact character; consecutive separators produce empty
fields, and `Split("", " ") = [""]`.  We model it on `List Char` and wrap
to `String`. -/

def splitOnSpaceChars : List Char → List (List Char)
  | [] => [[]]
  | c :: rest =>
    if c = ' ' then [] :: splitOnSpaceChars rest
    else
      match splitOnSpaceChars rest with
      | t :: ts => (c :: t) :: ts
      | [] => [[c]]

/-- Model of Go `strings.Split(s, " ")` (source line 262). -/
def goSplitSpace (s : String) : List String :=
  (splitOnSpaceChars s.data).map String.mk

/-- Joining tokens with single spaces; inverse of `goSplitSpace` on
well-formed token lists. -/
def joinSpace : List String → String
  | [] => ""
  | [s] => s
  | s :: rest => s ++ " " ++ joinSpace rest

/-- Written from the spec's words, for comparison with `goSplitSpace`:
"tokenized on whitespace into discrete arguments" — fields separated by
any run of whitespace, with no empty tokens. -/
def wsTokenize (s : String) : List String :=
  ((s.data.splitOnP (fun c => c == ' ' || c == '\t' || c == '\n' || c == '\r')).map
    String.mk).filter (fun t => t ≠ "")

/-! ## Configuration and command-line flags -/

structure ConfigFile where
  backupInfo : List GoMap
  copyInfo : List GoMap
  pruneInfo : List GoMap
  checkInfo : List GoMap

structure Flags where
  cmdBackup : Bool
  cmdPrune : Bool
  cmdCheck : Bool

/-! ## Argument vectors and narration lines (source lines 227–287)

Each loop iteration of `performBackup` builds one argument vector for the
external `duplicacy` invocation and emits one narration line through
`logMessage` before invoking.  The check-loop narration indexes
`pruneInfo` (source line 279), not `checkInfo` — we embed that access
exactly as written. -/

def backupArgs (m : GoMap) : List String :=
  ["backup", "-storage", mapGet m "name", "-threads", mapGet m "threads", "-stats"]

def copyArgs (m : GoMap) : List String :=
  ["copy", "-threads", mapGet m "threads", "-from", mapGet m "from", "-to", mapGet m "to"]

def pruneArgs (m : GoMap) : List String :=
  ["prune", "-all", "-storage", mapGet m "storage"] ++ goSplitSpace (mapGet m "keep")

def checkArgs (m : GoMap) : List String :=
  if mapGet m "all" = "true" then ["check", "-storage", mapGet m "storage", "-all"]
  else ["check", "-storage", mapGet m "storage"]

def backupNarr (m : GoMap) : String :=
  "Backing up to storage " ++ mapGet m "name" ++ " with " ++ mapGet m "threads" ++ " threads"

def copyNarr (m : GoMap) : String :=
  "Copying from storage " ++ mapGet m "from" ++ " to storage " ++ mapGet m "to" ++
    " with " ++ mapGet m "threads" ++ " threads"

def pruneNarr (m : GoMap) : String :=
  "Pruning storage " ++ mapGet m "storage"

/-- Narration of one check iteration.  Its argument is the `pruneInfo`
entry at the iteration index, because source line 279 reads
`configFile.pruneInfo[i]["storage"]` inside the check loop. -/
def checkNarr (p : GoMap) : String :=
  "Checking storage " ++ mapGet p "storage"

/-! ## The pipeline loops

A run of the operation loops produces a trace of events — narration
lines (the `logMessage` calls that also feed the mail buffer) and
external invocations — plus an outcome.  `panicked` is the Go runtime
panic raised by an out-of-range slice index.  The purely file-local
`logger.Println` separator lines and the `logError` report after a
failed invocation carry no decision content and are not traced. -/

inductive Ev
  | narr (line : String)
  | inv (args : List String)
deriving DecidableEq, Repr

inductive Outcome
  | ok
  | failed
  | panicked
deriving DecidableEq, Repr

/-- One phase loop of `performBackup` for the backup / copy / prune
phases, whose narration comes from the iterated entry itself: narrate,
invoke, stop at the first failed invocation. -/
def phaseLoop (exec : List String → Bool) (narrF : GoMap → String)
    (argF : GoMap → List String) : List GoMap → List Ev × Outcome
  | [] => ([], .ok)
  | m :: rest =>
    let a := argF m
    if exec a then
      let r := phaseLoop exec narrF argF rest
      (Ev.narr (narrF m) :: Ev.inv a :: r.1, r.2)
    else ([Ev.narr (narrF m), Ev.inv a], .failed)

/-- The check loop (source lines 274–287).  Iteration `i` narrates from
`pruneInfo[i]`; when `i` is out of range for `pruneInfo` the Go slice
index panics before the narration is emitted and before the invocation
runs. -/
def checkLoop (exec : List String → Bool) (prunes : List GoMap) :
    Nat → List GoMap → List Ev × Outcome
  | _, [] => ([], .ok)
  | i, m :: rest =>
    match prunes[i]? with
    | none => ([], .panicked)
    | some p =>
      let a := checkArgs m
      if exec a then
        let r := checkLoop exec prunes (i + 1) rest
        (Ev.narr (checkNarr p) :: Ev.inv a :: r.1, r.2)
      else ([Ev.narr (checkNarr p), Ev.inv a], .failed)

/-- Sequencing of two stages: the trace and outcome of the second count
only if the first ended `ok` (in the source, each failed stage does
`return err` at once, so the second stage never runs). -/
def seqStage (x y : List Ev × Outcome) : List Ev × Outcome :=
  match x with
  | (t, .ok) => (t ++ y.1, y.2)
  | (t, o) => (t, o)

/-- The operation loops of `performBackup` (source lines 227–287): the
backup phase (with the copy loop inside the same `if cmdBackup` block),
then prune, then check.  The `len(copyInfo) != 0` guard in the source is
behaviourally the empty loop, which `phaseLoop` already yields on `[]`. -/
def backupPhases (fl : Flags) (cfg : ConfigFile) (exec : List String → Bool) :
    List Ev × Outcome :=
  seqStage
    (if fl.cmdBackup then
      seqStage (phaseLoop exec backupNarr backupArgs cfg.backupInfo)
        (phaseLoop exec copyNarr copyArgs cfg.copyInfo)
    else ([], .ok))
    (seqStage
      (if fl.cmdPrune then phaseLoop exec pruneNarr pruneArgs cfg.pruneInfo
       else ([], .ok))
      (if fl.cmdCheck then checkLoop exec cfg.pruneInfo 0 cfg.checkInfo
       else ([], .ok)))

/-- The argument vectors of all invocations a run would perform if no
invocation failed and no panic occurred, in pipeline order. -/
def plannedInvs (fl : Flags) (cfg : ConfigFile) : List (List String) :=
  (if fl.cmdBackup then
    cfg.backupInfo.map backupArgs ++ cfg.copyInfo.map copyArgs
   else []) ++
  ((if fl.cmdPrune then cfg.pruneInfo.map pruneArgs else []) ++
   (if fl.cmdCheck then cfg.checkInfo.map checkArgs else []))

/-- The invocations recorded in a trace, in order. -/
def invsOf (t : List Ev) : List (List String) :=
  t.filterMap (fun e => match e with | .inv a => some a | _ => none)

/-- Fail-fast truncation: all invocations up to and including the first
one the oracle fails. -/
def failFastTake (exec : List String → Bool) : List (List String) → List (List String)
  | [] => []
  | a :: rest => if exec a then a :: failFastTake exec rest else [a]

/-! ## The filesystem model for log rotation

`rotateLogFiles` touches only the current log `<logDir>/<config>.log` and
its numbered generations `<logDir>/<config>.log.<i>.gz`; the path schema
is injective, so file names are embedded as a structured type.  File
contents are byte lists; a gzip stream is modelled by the `gzipped`
constructor (modelled from the spec: the standard streaming compressor is
lossless, so a compressed stream is represented by the data it
decompresses to), and `corruptGz` stands for the truncated stream left in
a destination whose write failed mid-copy. -/

inductive FName
  | log
  | gz (i : Nat)
  | other (s : String)
deriving DecidableEq, Repr

inductive FileData
  | plain (bytes : List Nat)
  | gzipped (d : FileData)
  | corruptGz
deriving DecidableEq, Repr

/-- Modelled from the spec: gzip decompression of a stream produced by
the streaming compressor recovers exactly the data that was written. -/
def gunzipData : FileData → Option FileData
  | .gzipped d => some d
  | _ => none

abbrev FS := FName → Option FileData

def fsSet (fs : FS) (n : FName) (d : Option FileData) : FS :=
  fun m => if m = n then d else fs m

/-- Go `os.Rename(src, dst)`: when `src` exists its content moves to
`dst` (overwriting `dst`); when `src` is missing the call fails and the
filesystem is untouched.  `rotateLogFiles` discards the returned error,
so the missing-source case is a silent no-op. -/
def osRename (src dst : FName) (fs : FS) : FS :=
  match fs src with
  | none => fs
  | some d => fsSet (fsSet fs src none) dst (some d)

/-- Go `os.Create(name)`: truncates or creates `name`; the fault flag
injects the create-failure path. -/
def osCreate (n : FName) (createErr : Bool) (fs : FS) : Option FS :=
  if createErr then none else some (fsSet fs n (some (.plain [])))

/-- The rename stage of `rotateLogFiles` (source lines 302–305): the Go
loop `for i := N-2; i >= 1; i--` renaming `log.i.gz` to `log.(i+1).gz`.
`shiftLogs fs m` performs the renames for sources `m` down to `1`, so
the source loop is `shiftLogs fs (N - 2)`. -/
def shiftLogs (fs : FS) : Nat → FS
  | 0 => fs
  | Nat.succ k => shiftLogs (osRename (.gz (k + 1)) (.gz (k + 2)) fs) k

/-- Fault injection for the three fallible steps of the compression
stage: `os.Open` of the current log, `os.Create` of `log.1.gz`, and the
`io.Copy` through the gzip writer. -/
structure RotFaults where
  openErr : Bool
  createErr : Bool
  writeErr : Bool
deriving DecidableEq, Repr

def noRotFaults : RotFaults := ⟨false, false, false⟩

inductive RotErr
  | openFailed
  | createFailed
  | writeFailed
deriving DecidableEq, Repr

/-- Model of `rotateLogFiles` (source lines 298–337) over a filesystem
and a fault specification; `N` is `globalLogFileCount`.  Returns the
resulting filesystem and `some e` exactly when the source returns a
non-nil error.  The `writeErr` case has already created `log.1.gz`, so
the destination is left holding a truncated stream. -/
def rotateLogFiles (N : Nat) (flt : RotFaults) (fs : FS) : FS × Option RotErr :=
  let fs1 := shiftLogs fs (N - 2)
  match fs1 .log with
  | none => (fs1, none)
  | some d =>
    if flt.openErr then (fs1, some .openFailed)
    else if flt.createErr then (fs1, some .createFailed)
    else if flt.writeErr then (fsSet fs1 (.gz 1) (some .corruptGz), some .writeFailed)
    else (fsSet fs1 (.gz 1) (some (.gzipped d)), none)

/-! ## The full run: `performBackup`, `obtainLock`, `main`

`performBackup` rotates the logs, creates the fresh log file, then runs
the operation loops.  `obtainLock` wraps it with the run lock: TryLock
error → 201, lock contention → 200, pipeline error → 500, success → 0;
the deferred `fileLock.Unlock()` and `os.Remove(lockfile)` run on every
return from `performBackup` and also during panic unwinding, so each
acquired branch ends with the lock released and the lock file removed.
`main` passes the value of `obtainLock` straight to `os.Exit`; a Go
panic terminates the process with status 2. -/

structure PipeEnv where
  rotFaults : RotFaults
  createLogErr : Bool

def noPipeFaults : PipeEnv := ⟨noRotFaults, false⟩

/-- Model of `performBackup` (source lines 203–296): rotation failure or
log-creation failure returns an error before any operation runs;
otherwise the outcome is that of the operation loops. -/
def performBackup (pe : PipeEnv) (N : Nat) (fs : FS) (fl : Flags) (cfg : ConfigFile)
    (exec : List String → Bool) : List Ev × Outcome :=
  match (rotateLogFiles N pe.rotFaults fs).2 with
  | some _ => ([], .failed)
  | none =>
    if pe.createLogErr then ([], .failed)
    else backupPhases fl cfg exec

/-- The state of the run lock after `obtainLock` returns: whether the
lock file still exists and whether the advisory lock is still held by
this process. -/
structure LockAfter where
  fileExists : Bool
  held : Bool
deriving DecidableEq, Repr

/-- Model of `obtainLock` (source lines 172–201) composed with the exit
mapping of `main` (source line 169, `os.Exit(obtainLock())`): the first
component is the process exit status, the second the lock state after
the run.  `tryErr` injects a `TryLock` mechanism error; `otherHolder`
means another process holds the lock (contention); a panic in the
pipeline still runs the deferred release and ends the process with the
Go runtime's status 2. -/
def obtainLock (tryErr otherHolder : Bool) (pe : PipeEnv) (N : Nat) (fs : FS)
    (fl : Flags) (cfg : ConfigFile) (exec : List String → Bool) : Nat × LockAfter :=
  if tryErr then (201, ⟨true, false⟩)
  else if otherHolder then (200, ⟨true, false⟩)
  else
    match (performBackup pe N fs fl cfg exec).2 with
    | .ok => (0, ⟨false, false⟩)
    | .failed => (500, ⟨false, false⟩)
    | .panicked => (2, ⟨false, false⟩)

/-! ## The log sink -/

inductive Dest
  | stdout
  | stderr
deriving DecidableEq, Repr

/-- Model of `logFMessage` (source lines 83–96).  `now` is
`time.Now().Format("15:04:05")`.  Returns the new mail buffer, the line
printed to the console destination `w`, and the line handed to the log
file's logger when one is attached (source line 85; that logger stamps
its own time).  The time-stamped `text` is appended to `mailBody`
unconditionally; only the console copy distinguishes stdout (stamped)
from stderr (bare message). -/
def logFMessage (w : Dest) (hasLogger : Bool) (now message : String)
    (mailBody : List String) : List String × String × Option String :=
  let text := now ++ " " ++ message
  (mailBody ++ [text],
   (match w with
    | .stdout => text
    | .stderr => message),
   if hasLogger then some message else none)

/-- Written from the spec's words, for comparison with `pruneArgs`: the
fixed prelude followed by the whitespace-tokenized keep-policy. -/
def specPruneArgs (m : GoMap) : List String :=
  ["prune", "-all", "-storage", mapGet m "storage"] ++ wsTokenize (mapGet m "keep")

/-- The condition a pipeline stage must satisfy: unless it panicked, its
invocation trace is the fail-fast truncation of its planned invocations,
and it succeeded exactly when every planned invocation succeeds. -/
def StageOk (exec : List String → Bool) (planned : List (List String))
    (r : List Ev × Outcome) : Prop :=
  r.2 ≠ .panicked →
    (invsOf r.1 = failFastTake exec planned ∧
     (r.2 = .ok ↔ ∀ a ∈ planned, exec a = true))

/-! ## Concrete instances used by witnesses and counterexamples -/

def fsEmpty : FS := fun _ => none

def fsLogOnly : FS := fun n =>
  match n with
  | .log => some (.plain [7, 8])
  | _ => none

def fsFull : FS := fun n =>
  match n with
  | .log => some (.plain [1])
  | .gz 1 => some (.gzipped (.plain [10]))
  | .gz 2 => some (.gzipped (.plain [20]))
  | .gz 3 => some (.gzipped (.plain [30]))
  | _ => none

def flagsBackupOnly : Flags := ⟨true, false, false⟩

def flagsCheckOnly : Flags := ⟨false, false, true⟩

def cfgOneBackup : ConfigFile :=
  ⟨[[("name", "s1"), ("threads", "4")]], [], [], []⟩

def cfgThreeBackups : ConfigFile :=
  ⟨[[("name", "s1"), ("threads", "4")], [("name", "s2"), ("threads", "4")],
    [("name", "s3"), ("threads", "4")]], [], [], []⟩

/-- A configuration whose check list is longer than its prune list. -/
def cfgCheckNoPrune : ConfigFile := ⟨[], [], [], [[("storage", "chk")]]⟩

/-- A configuration whose single prune entry and single check entry name
different storages. -/
def cfgMismatch : ConfigFile :=
  ⟨[], [], [[("storage", "prn"), ("keep", "7d")]], [[("storage", "chk")]]⟩

def execAlwaysOk : List String → Bool := fun _ => true

/-- An external-tool oracle that fails exactly the second of the three
backup invocations of `cfgThreeBackups`. -/
def execFailSecond : List String → Bool :=
  fun a => !(a == ["backup", "-storage", "s2", "-threads", "4", "-stats"])

/-! ## Lemmas about the pipeline loops -/

theorem invsOf_narr (s : String) (t : List Ev) : invsOf (Ev.narr s :: t) = invsOf t := rfl

theorem invsOf_inv (a : List String) (t : List Ev) : invsOf (Ev.inv a :: t) = a :: invsOf t := rfl

theorem invsOf_append (t1 t2 : List Ev) : invsOf (t1 ++ t2) = invsOf t1 ++ invsOf t2 := by
  simp [invsOf]

theorem failFastTake_all (exec : List String → Bool) :
    ∀ xs : List (List String), (∀ a ∈ xs, exec a = true) → failFastTake exec xs = xs
  | [], _ => rfl
  | a :: rest, h => by
    have ha := h a (List.mem_cons_self a rest)
    have hrest := failFastTake_all exec rest (fun b hb => h b (List.mem_cons_of_mem a hb))
    simp [failFastTake, ha, hrest]

theorem failFastTake_append_all (exec : List String → Bool) (xs ys : List (List String))
    (h : ∀ a ∈ xs, exec a = true) :
    failFastTake exec (xs ++ ys) = xs ++ failFastTake exec ys := by
  induction xs with
  | nil => simp
  | cons a rest ih =>
    have ha := h a (List.mem_cons_self a rest)
    have hrest := ih (fun b hb => h b (List.mem_cons_of_mem a hb))
    simp [failFastTake, ha, hrest]

theorem failFastTake_append_fail (exec : List String → Bool) (xs ys : List (List String))
    (h : ¬ ∀ a ∈ xs, exec a = true) :
    failFastTake exec (xs ++ ys) = failFastTake exec xs := by
  induction xs with
  | nil => exact absurd (by simp) h
  | cons a rest ih =>
    by_cases ha : exec a = true
    · have hrest : ¬ ∀ b ∈ rest, exec b = true := by
        intro hr
        apply h
        intro b hb
        rcases List.mem_cons.mp hb with h1 | h2
        · rw [h1]; exact ha
        · exact hr b h2
      simp [failFastTake, ha, ih hrest]
    · simp [failFastTake, ha]

theorem stageOk_nil (exec : List String → Bool) : StageOk exec [] ([], .ok) :=
  fun _ => ⟨rfl, by simp [failFastTake]⟩

theorem phaseLoop_not_panicked (exec : List String → Bool) (narrF : GoMap → String)
    (argF : GoMap → List String) :
    ∀ l : List GoMap, (phaseLoop exec narrF argF l).2 ≠ Outcome.panicked
  | [] => by simp [phaseLoop]
  | m :: rest => by
    have ih := phaseLoop_not_panicked exec narrF argF rest
    by_cases hm : exec (argF m) = true <;> simp [phaseLoop, hm, ih]

theorem stageOk_phaseLoop (exec : List String → Bool) (narrF : GoMap → String)
    (argF : GoMap → List String) :
    ∀ l : List GoMap, StageOk exec (l.map argF) (phaseLoop exec narrF argF l)
  | [] => stageOk_nil exec
  | m :: rest => by
    intro _
    by_cases hm : exec (argF m) = true
    · have hih := stageOk_phaseLoop exec narrF argF rest
        (phaseLoop_not_panicked exec narrF argF rest)
      constructor
      · simp [phaseLoop, hm, invsOf_narr, invsOf_inv, failFastTake, hih.1]
      · simp [phaseLoop, hm, List.forall_mem_cons, hih.2]
    · constructor
      · simp [phaseLoop, hm, invsOf_narr, invsOf_inv, invsOf, failFastTake]
      · simp [phaseLoop, hm, List.forall_mem_cons]

theorem stageOk_checkLoop (exec : List String → Bool) (prunes : List GoMap) :
    ∀ (l : List GoMap) (i : Nat),
      StageOk exec (l.map checkArgs) (checkLoop exec prunes i l)
  | [], _ => stageOk_nil exec
  | m :: rest, i => by
    intro hnp
    cases hp : prunes[i]? with
    | none => exact absurd (by simp [checkLoop, hp]) hnp
    | some p =>
      by_cases hm : exec (checkArgs m) = true
      · have hnp2 : (checkLoop exec prunes (i + 1) rest).2 ≠ Outcome.panicked := by
          intro hpan
          exact hnp (by simp [checkLoop, hp, hm, hpan])
        have hih := stageOk_checkLoop exec prunes rest (i + 1) hnp2
        constructor
        · simp [checkLoop, hp, hm, invsOf_narr, invsOf_inv, failFastTake, hih.1]
        · simp [checkLoop, hp, hm, List.forall_mem_cons, hih.2]
      · constructor
        · simp [checkLoop, hp, hm, invsOf_narr, invsOf_inv, invsOf, failFastTake]
        · simp [checkLoop, hp, hm, List.forall_mem_cons]

theorem stageOk_seq (exec : List String → Bool) (p1 p2 : List (List String))
    (x y : List Ev × Outcome)
    (h1 : StageOk exec p1 x) (h2 : StageOk exec p2 y) :
    StageOk exec (p1 ++ p2) (seqStage x y) := by
  intro hnp
  rcases x with ⟨t, o⟩
  cases o with
  | ok =>
    have hx := h1 (by simp)
    have hall : ∀ a ∈ p1, exec a = true := hx.2.mp rfl
    have hk : y.2 ≠ Outcome.panicked := by
      intro hpan
      exact hnp (by simp [seqStage, hpan])
    have hy := h2 hk
    constructor
    · simp [seqStage, invsOf_append, hx.1, hy.1,
        failFastTake_append_all exec p1 p2 hall, failFastTake_all exec p1 hall]
    · have hout : (seqStage (t, Outcome.ok) y).2 = y.2 := by simp [seqStage]
      rw [hout, hy.2]
      constructor
      · intro h a ha
        rcases List.mem_append.mp ha with hm | hm
        · exact hall a hm
        · exact h a hm
      · intro h a ha
        exact h a (List.mem_append_right p1 ha)
  | failed =>
    have hx := h1 (by simp)
    have hnall : ¬ ∀ a ∈ p1, exec a = true := by
      intro hall
      have := hx.2.mpr hall
      simp at this
    constructor
    · simp [seqStage, hx.1, failFastTake_append_fail exec p1 p2 hnall]
    · constructor
      · intro hh
        simp [seqStage] at hh
      · intro hall
        exact absurd (fun a ha => hall a (List.mem_append_left p2 ha)) hnall
  | panicked => exact absurd (by simp [seqStage]) hnp

theorem stageOk_backupPhases (fl : Flags) (cfg : ConfigFile) (exec : List String → Bool) :
    StageOk exec (plannedInvs fl cfg) (backupPhases fl cfg exec) := by
  have hbackup : StageOk exec
      (if fl.cmdBackup then cfg.backupInfo.map backupArgs ++ cfg.copyInfo.map copyArgs else [])
      (if fl.cmdBackup then
        seqStage (phaseLoop exec backupNarr backupArgs cfg.backupInfo)
          (phaseLoop exec copyNarr copyArgs cfg.copyInfo)
       else ([], .ok)) := by
    cases hb : fl.cmdBackup
    · simpa [hb] using stageOk_nil exec
    · simpa [hb] using stageOk_seq exec _ _ _ _
        (stageOk_phaseLoop exec backupNarr backupArgs cfg.backupInfo)
        (stageOk_phaseLoop exec copyNarr copyArgs cfg.copyInfo)
  have hprune : StageOk exec
      (if fl.cmdPrune then cfg.pruneInfo.map pruneArgs else [])
      (if fl.cmdPrune then phaseLoop exec pruneNarr pruneArgs cfg.pruneInfo
       else ([], .ok)) := by
    cases hp : fl.cmdPrune
    · simpa [hp] using stageOk_nil exec
    · simpa [hp] using stageOk_phaseLoop exec pruneNarr pruneArgs cfg.pruneInfo
  have hcheck : StageOk exec
      (if fl.cmdCheck then cfg.checkInfo.map checkArgs else [])
      (if fl.cmdCheck then checkLoop exec cfg.pruneInfo 0 cfg.checkInfo
       else ([], .ok)) := by
    cases hc : fl.cmdCheck
    · simpa [hc] using stageOk_nil exec
    · simpa [hc] using stageOk_checkLoop exec cfg.pruneInfo cfg.checkInfo 0
  exact stageOk_seq exec _ _ _ _ hbackup (stageOk_seq exec _ _ _ _ hprune hcheck)

/-- With no injected faults, `rotateLogFiles` returns a nil error. -/
theorem rotateLogFiles_noFaults (N : Nat) (fs : FS) :
    (rotateLogFiles N noRotFaults fs).2 = none := by
  cases hl : shiftLogs fs (N - 2) FName.log <;>
    simp [rotateLogFiles, noRotFaults, hl]

/-- With no injected rotation or log-creation faults, `performBackup`
is exactly the operation loops. -/
theorem performBackup_noFaults (N : Nat) (fs : FS) (fl : Flags) (cfg : ConfigFile)
    (exec : List String → Bool) :
    performBackup noPipeFaults N fs fl cfg exec = backupPhases fl cfg exec := by
  unfold performBackup
  rw [show noPipeFaults.rotFaults = noRotFaults from rfl, rotateLogFiles_noFaults]
  rfl

/-! ## Claim C2: pipeline order and fail-fast -/

/-- C2 (amended): for every run with no injected rotation or
log-creation fault that does not crash on the check loop's out-of-range
access, the executed invocations are exactly the planned pipeline
sequence — backup, copy, prune, check, each list in declared order —
truncated at the first failed invocation; the run succeeds exactly when
every planned invocation succeeds and fails exactly when one fails. -/
theorem C2_pipeline_fail_fast (N : Nat) (fs : FS) (fl : Flags) (cfg : ConfigFile)
    (exec : List String → Bool)
    (h : (performBackup noPipeFaults N fs fl cfg exec).2 ≠ Outcome.panicked) :
    invsOf (performBackup noPipeFaults N fs fl cfg exec).1 =
      failFastTake exec (plannedInvs fl cfg) ∧
    ((performBackup noPipeFaults N fs fl cfg exec).2 = Outcome.ok ↔
      ∀ a ∈ plannedInvs fl cfg, exec a = true) ∧
    ((performBackup noPipeFaults N fs fl cfg exec).2 = Outcome.failed ↔
      ¬ ∀ a ∈ plannedInvs fl cfg, exec a = true) := by
  rw [performBackup_noFaults] at h ⊢
  have hs := stageOk_backupPhases fl cfg exec h
  refine ⟨hs.1, hs.2, ?_⟩
  cases ho : (backupPhases fl cfg exec).2 with
  | ok =>
    have hall := hs.2.mp ho
    exact ⟨fun hq => Outcome.noConfusion hq, fun hn => absurd hall hn⟩
  | failed =>
    constructor
    · intro _
      intro hall
      have h2 := hs.2.mpr hall
      rw [ho] at h2
      exact Outcome.noConfusion h2
    · intro _
      rfl
  | panicked => exact absurd ho h

/-- C2 witness: the claim's own scenario — three backup storages, the
second invocation fails — run at a concrete configuration: no panic,
the trace is the fail-fast truncation, exactly two invocations occur,
and the outcome is failure. -/
theorem C2_pipeline_fail_fast_witness :
    (performBackup noPipeFaults 5 fsEmpty flagsBackupOnly cfgThreeBackups execFailSecond).2 ≠
      Outcome.panicked ∧
    invsOf (performBackup noPipeFaults 5 fsEmpty flagsBackupOnly cfgThreeBackups
        execFailSecond).1 =
      failFastTake execFailSecond (plannedInvs flagsBackupOnly cfgThreeBackups) ∧
    (invsOf (performBackup noPipeFaults 5 fsEmpty flagsBackupOnly cfgThreeBackups
        execFailSecond).1).length = 2 ∧
    (performBackup noPipeFaults 5 fsEmpty flagsBackupOnly cfgThreeBackups execFailSecond).2 =
      Outcome.failed :=
  ⟨by decide,
   (C2_pipeline_fail_fast 5 fsEmpty flagsBackupOnly cfgThreeBackups execFailSecond
     (by decide)).1,
   by decide, by decide⟩

/-- C2 counterexample: with the check phase selected, one check
operation and an empty prune list, every invocation succeeding, the
run's invocation trace is not the fail-fast truncation of the planned
operations — the check loop crashes on `pruneInfo[0]` before invoking
anything, so the claim as stated fails on this run. -/
theorem C2_counterexample :
    invsOf (performBackup noPipeFaults 5 fsEmpty flagsCheckOnly cfgCheckNoPrune
        execAlwaysOk).1 ≠
      failFastTake execAlwaysOk (plannedInvs flagsCheckOnly cfgCheckNoPrune) := by
  decide

/-! ## Claim C3: process exit codes -/

/-- C3 counterexample: a run that acquires the lock and whose second
backup invocation fails exits with code 500, not 1 — `main` passes the
value of `obtainLock` (500 on pipeline failure) straight to `os.Exit`
with no mapping to 1. -/
theorem C3_counterexample :
    (obtainLock false false noPipeFaults 5 fsEmpty flagsBackupOnly cfgThreeBackups
        execFailSecond).1 = 500 ∧
    (obtainLock false false noPipeFaults 5 fsEmpty flagsBackupOnly cfgThreeBackups
        execFailSecond).1 ≠ 1 := by
  decide

/-- C3 (amended): for every fault-free run, a TryLock mechanism error
exits 201; lock contention exits 200; when the lock is acquired and the
run does not crash, the exit code is 0 when all selected operations
succeed and 500 — not 1 — when the pipeline fails. -/
theorem C3_exit_codes (N : Nat) (fs : FS) (fl : Flags) (cfg : ConfigFile)
    (exec : List String → Bool) (tryErr otherHolder : Bool) :
    (tryErr = true →
      (obtainLock tryErr otherHolder noPipeFaults N fs fl cfg exec).1 = 201) ∧
    (tryErr = false → otherHolder = true →
      (obtainLock tryErr otherHolder noPipeFaults N fs fl cfg exec).1 = 200) ∧
    (tryErr = false → otherHolder = false →
      (performBackup noPipeFaults N fs fl cfg exec).2 ≠ Outcome.panicked →
      (∀ a ∈ plannedInvs fl cfg, exec a = true) →
      (obtainLock tryErr otherHolder noPipeFaults N fs fl cfg exec).1 = 0) ∧
    (tryErr = false → otherHolder = false →
      (performBackup noPipeFaults N fs fl cfg exec).2 ≠ Outcome.panicked →
      ¬ (∀ a ∈ plannedInvs fl cfg, exec a = true) →
      (obtainLock tryErr otherHolder noPipeFaults N fs fl cfg exec).1 = 500) := by
  refine ⟨fun ht => ?_, fun ht ho => ?_, fun ht ho hnp hall => ?_, fun ht ho hnp hnall => ?_⟩
  · simp [obtainLock, ht]
  · simp [obtainLock, ht, ho]
  · rw [performBackup_noFaults] at hnp
    have hs := stageOk_backupPhases fl cfg exec hnp
    have hok : (backupPhases fl cfg exec).2 = Outcome.ok := hs.2.mpr hall
    simp [obtainLock, ht, ho, performBackup_noFaults, hok]
  · rw [performBackup_noFaults] at hnp
    have hs := stageOk_backupPhases fl cfg exec hnp
    have hfail : (backupPhases fl cfg exec).2 = Outcome.failed := by
      cases hc : (backupPhases fl cfg exec).2
      · exact absurd (hs.2.mp hc) hnall
      · rfl
      · exact absurd hc hnp
    simp [obtainLock, ht, ho, performBackup_noFaults, hfail]

/-- C3 witness: a concrete acquired, all-successful run exits 0. -/
theorem C3_exit_codes_witness :
    (obtainLock false false noPipeFaults 5 fsEmpty flagsBackupOnly cfgOneBackup
        execAlwaysOk).1 = 0 :=
  (C3_exit_codes 5 fsEmpty flagsBackupOnly cfgOneBackup execAlwaysOk false false).2.2.1
    rfl rfl (by decide) (by decide)

/-! ## Claim C4: the lock is released on every exit path -/

/-- C4: for every run that acquires the lock — whatever faults are
injected and whether the pipeline succeeds, fails or panics — the
deferred release runs: after `obtainLock` returns, the advisory lock is
no longer held and the backing lock file has been removed. -/
theorem C4_lock_released_on_all_paths (pe : PipeEnv) (N : Nat) (fs : FS) (fl : Flags)
    (cfg : ConfigFile) (exec : List String → Bool) :
    ((obtainLock false false pe N fs fl cfg exec).2.fileExists = false) ∧
    ((obtainLock false false pe N fs fl cfg exec).2.held = false) := by
  cases h : (performBackup pe N fs fl cfg exec).2 <;> simp [obtainLock, h]

/-! ## Claim C8: the mail buffer copy of every log line -/

/-- C8 counterexample: a message sent down the abnormal/fatal (stderr)
console path is appended to the mail buffer WITH the time stamp — the
claim says such messages are recorded in the buffer without it. -/
theorem C8_counterexample :
    (logFMessage Dest.stderr false "12:00:00" "boom" []).1 = ["12:00:00 boom"] ∧
    (logFMessage Dest.stderr false "12:00:00" "boom" []).1 ≠ ["boom"] := by
  decide

/-- C8 (amended): every message is appended to the in-memory mail
buffer carrying the fixed-format time stamp, regardless of destination;
it is the console copy that differs — stdout prints the stamped text,
the abnormal/fatal stderr path prints the bare message. -/
theorem C8_mail_buffer_timestamp (w : Dest) (hasLogger : Bool) (now message : String)
    (mailBody : List String) :
    (logFMessage w hasLogger now message mailBody).1 = mailBody ++ [now ++ " " ++ message] ∧
    (logFMessage Dest.stdout hasLogger now message mailBody).2.1 = now ++ " " ++ message ∧
    (logFMessage Dest.stderr hasLogger now message mailBody).2.1 = message :=
  ⟨rfl, rfl, rfl⟩

/-! ## Claim C9: narration before each check invocation -/

/-- C9: the narration emitted before a check invocation names the
storage of the prune entry at the same index, not the check operation's
own storage — with prune storage "prn" and check storage "chk", the
emitted line is "Checking storage prn" and no line names "chk". -/
theorem C9_check_narration_names_prune_storage :
    (performBackup noPipeFaults 5 fsEmpty flagsCheckOnly cfgMismatch execAlwaysOk).1 =
      [Ev.narr "Checking storage prn", Ev.inv ["check", "-storage", "chk"]] ∧
    Ev.narr "Checking storage chk" ∉
      (performBackup noPipeFaults 5 fsEmpty flagsCheckOnly cfgMismatch execAlwaysOk).1 := by
  decide

/-! ## Claim C10: totality of the check loop -/

/-- C10: a configuration whose check list is longer than its prune list
makes the check loop index `pruneInfo` out of range: the run panics
instead of completing the loop. -/
theorem C10_check_loop_out_of_range :
    (performBackup noPipeFaults 5 fsEmpty flagsCheckOnly cfgCheckNoPrune execAlwaysOk).2 =
      Outcome.panicked := by
  decide

/-! ## Claim C7: prune argument construction -/

theorem splitOnSpaceChars_no_space :
    ∀ cs : List Char, ' ' ∉ cs → splitOnSpaceChars cs = [cs]
  | [], _ => rfl
  | c :: rest, h => by
    rw [List.mem_cons, not_or] at h
    have hc : ¬ c = ' ' := fun he => h.1 he.symm
    have hr := splitOnSpaceChars_no_space rest h.2
    simp [splitOnSpaceChars, hc, hr]

theorem splitOnSpaceChars_append (ds : List Char) :
    ∀ cs : List Char, ' ' ∉ cs →
      splitOnSpaceChars (cs ++ ' ' :: ds) = cs :: splitOnSpaceChars ds
  | [], _ => by simp [splitOnSpaceChars]
  | c :: rest, h => by
    rw [List.mem_cons, not_or] at h
    have hc : ¬ c = ' ' := fun he => h.1 he.symm
    have hr := splitOnSpaceChars_append ds rest h.2
    simp [splitOnSpaceChars, hc, hr]

/-- Round trip: splitting on the space character recovers a token list
that was joined with single spaces, as long as no token itself contains
a space. -/
theorem goSplitSpace_joinSpace :
    ∀ toks : List String, toks ≠ [] → (∀ t ∈ toks, ' ' ∉ t.data) →
      goSplitSpace (joinSpace toks) = toks
  | [], h, _ => absurd rfl h
  | [t], _, htok => by
    have ht := htok t (List.mem_cons_self t [])
    simp [joinSpace, goSplitSpace, splitOnSpaceChars_no_space t.data ht]
  | t :: t2 :: rest, _, htok => by
    have ht := htok t (List.mem_cons_self t (t2 :: rest))
    have ih := goSplitSpace_joinSpace (t2 :: rest) (by simp)
      (fun u hu => htok u (List.mem_cons_of_mem t hu))
    have hdata : (joinSpace (t :: t2 :: rest)).data =
        t.data ++ ' ' :: (joinSpace (t2 :: rest)).data := by
      show (t ++ " " ++ joinSpace (t2 :: rest)).data = _
      rw [String.data_append, String.data_append, List.append_assoc]
      rfl
    unfold goSplitSpace at ih ⊢
    rw [hdata, splitOnSpaceChars_append (joinSpace (t2 :: rest)).data t.data ht,
      List.map_cons, ih]

/-- C7 counterexample: a keep-policy containing a tab is passed through
as one opaque token — `strings.Split(keep, " ")` splits on the space
character only, not on whitespace as the claim states, so the argument
vector keeps the whole string as a single argument. -/
theorem C7_counterexample :
    pruneArgs [("storage", "s"), ("keep", "7d\t30:7")] ≠
      specPruneArgs [("storage", "s"), ("keep", "7d\t30:7")] ∧
    pruneArgs [("storage", "s"), ("keep", "7d\t30:7")] =
      ["prune", "-all", "-storage", "s", "7d\t30:7"] := by
  decide

/-- C7 (amended): the prune argument vector is the fixed prelude
`prune -all -storage <name>` followed by the keep-policy split at each
single space character; whenever the keep-policy is a single-space
separated list of space-free tokens this yields exactly those discrete
tokens. -/
theorem C7_prune_args (m : GoMap) (toks : List String)
    (hne : toks ≠ []) (htok : ∀ t ∈ toks, ' ' ∉ t.data)
    (hkeep : mapGet m "keep" = joinSpace toks) :
    pruneArgs m = ["prune", "-all", "-storage", mapGet m "storage"] ++ toks := by
  unfold pruneArgs
  rw [hkeep, goSplitSpace_joinSpace toks hne htok]

/-- C7 witness: the claim's own example — keep-policy "7d 30:7"
produces the arguments prune -all -storage name1 7d 30:7. -/
theorem C7_prune_args_witness :
    pruneArgs [("storage", "name1"), ("keep", "7d 30:7")] =
      ["prune", "-all", "-storage", "name1", "7d", "30:7"] :=
  C7_prune_args [("storage", "name1"), ("keep", "7d 30:7")] ["7d", "30:7"]
    (by decide) (by decide) (by decide)

/-! ## Lemmas about the rename stage of log rotation -/

theorem osRename_ne (src dst n : FName) (fs : FS) (h1 : n ≠ src) (h2 : n ≠ dst) :
    osRename src dst fs n = fs n := by
  unfold osRename
  cases fs src <;> simp [fsSet, h1, h2]

theorem shiftLogs_preserves (n : FName) (hn : ∀ i, 1 ≤ i → n ≠ FName.gz i) :
    ∀ (m : Nat) (fs : FS), shiftLogs fs m n = fs n
  | 0, _ => rfl
  | Nat.succ k, fs => by
    show shiftLogs (osRename (FName.gz (k + 1)) (FName.gz (k + 2)) fs) k n = fs n
    rw [shiftLogs_preserves n hn k _]
    exact osRename_ne _ _ n fs (hn (k + 1) (by omega)) (hn (k + 2) (by omega))

/-- The slot-level effect of the rename stage `shiftLogs fs m` (the Go
loop `for i := m; i >= 1; i--` renaming `gz i` to `gz (i+1)` and
silently skipping missing sources): slots above `m+1` are untouched,
slot `j` with `2 ≤ j ≤ m` receives exactly the old slot `j-1` (present
or absent), the top written slot `m+1` receives the old slot `m` when it
existed and otherwise keeps its old content, slot 1 is always emptied,
and slot 0 is untouched. -/
theorem shiftLogs_gz : ∀ (m : Nat) (fs : FS),
    (∀ j, m + 2 ≤ j → shiftLogs fs m (FName.gz j) = fs (FName.gz j)) ∧
    (∀ j, 2 ≤ j → j ≤ m → shiftLogs fs m (FName.gz j) = fs (FName.gz (j - 1))) ∧
    (1 ≤ m → shiftLogs fs m (FName.gz (m + 1)) =
      (match fs (FName.gz m) with
       | some d => some d
       | none => fs (FName.gz (m + 1)))) ∧
    (1 ≤ m → shiftLogs fs m (FName.gz 1) = none) ∧
    (shiftLogs fs m (FName.gz 0) = fs (FName.gz 0))
  | 0, fs =>
    ⟨fun _ _ => rfl, fun _ h2 h0 => absurd (h2.trans h0) (by decide),
     fun h => absurd h (by decide), fun h => absurd h (by decide), rfl⟩
  | Nat.succ k, fs => by
    set fs' := osRename (FName.gz (k + 1)) (FName.gz (k + 2)) fs with hfs'
    have hshift : shiftLogs fs (k + 1) = shiftLogs fs' k := rfl
    have ih := shiftLogs_gz k fs'
    have fa : ∀ j, j ≠ k + 1 → j ≠ k + 2 → fs' (FName.gz j) = fs (FName.gz j) := by
      intro j hj1 hj2
      exact osRename_ne _ _ _ fs (by simp [hj1]) (by simp [hj2])
    have fb : fs' (FName.gz (k + 1)) = none := by
      rw [hfs']
      unfold osRename
      cases hsrc : fs (FName.gz (k + 1)) with
      | none => exact hsrc
      | some d => simp [fsSet]
    have fc : fs' (FName.gz (k + 2)) =
        (match fs (FName.gz (k + 1)) with
         | some d => some d
         | none => fs (FName.gz (k + 2))) := by
      rw [hfs']
      unfold osRename
      cases hsrc : fs (FName.gz (k + 1)) with
      | none => rfl
      | some d => simp [fsSet]
    refine ⟨?_, ?_, ?_, ?_, ?_⟩
    · intro j hj
      rw [hshift, ih.1 j (by omega)]
      exact fa j (by omega) (by omega)
    · intro j h2 hk
      rcases Nat.lt_or_ge j (k + 1) with hlt | hge
      · rw [hshift, ih.2.1 j h2 (by omega)]
        exact fa (j - 1) (by omega) (by omega)
      · have hj : j = k + 1 := by omega
        subst hj
        have hk1 : 1 ≤ k := by omega
        rw [hshift, ih.2.2.1 hk1, fa k (by omega) (by omega), fb]
        cases hv : fs (FName.gz k) <;> simp [hv]
    · intro _
      rw [hshift, ih.1 (k + 2) (by omega), fc]
    · intro _
      rcases Nat.eq_zero_or_pos k with hk0 | hkpos
      · subst hk0
        exact fb
      · rw [hshift]
        exact ih.2.2.2.1 hkpos
    · rw [hshift, ih.2.2.2.2]
      exact fa 0 (by omega) (by omega)

/-! ## Claim C5: the rotation algorithm -/

/-- C5: for every retention depth N ≥ 3 and filesystem, rotation first
performs the renames `gz i → gz (i+1)` for i from N-2 down to 1,
silently skipping missing files (each slot 2..N-2 receives the old
slot below it, slot 1 is emptied, slots ≥ N are untouched); if the
uncompressed log is absent the result is just the renamed filesystem
with no error; if it is present and no fault occurs its bytes are
compressed into generation 1; and an open, create or write fault makes
rotation return the corresponding error. -/
theorem C5_rotation_algorithm (N : Nat) (flt : RotFaults) (fs : FS) (hN : 3 ≤ N) :
    (∀ j, 2 ≤ j → j ≤ N - 2 → shiftLogs fs (N - 2) (FName.gz j) = fs (FName.gz (j - 1))) ∧
    (shiftLogs fs (N - 2) (FName.gz 1) = none) ∧
    (∀ j, N ≤ j → shiftLogs fs (N - 2) (FName.gz j) = fs (FName.gz j)) ∧
    (shiftLogs fs (N - 2) (FName.gz (N - 1)) =
      (match fs (FName.gz (N - 2)) with
       | some d => some d
       | none => fs (FName.gz (N - 1)))) ∧
    (fs FName.log = none → rotateLogFiles N flt fs = (shiftLogs fs (N - 2), none)) ∧
    (∀ b, fs FName.log = some (FileData.plain b) → flt = noRotFaults →
      (rotateLogFiles N flt fs).2 = none ∧
      (rotateLogFiles N flt fs).1 (FName.gz 1) =
        some (FileData.gzipped (FileData.plain b)) ∧
      (∀ n, n ≠ FName.gz 1 → (rotateLogFiles N flt fs).1 n = shiftLogs fs (N - 2) n)) ∧
    (fs FName.log ≠ none →
      (flt.openErr = true → (rotateLogFiles N flt fs).2 = some RotErr.openFailed) ∧
      (flt.openErr = false → flt.createErr = true →
        (rotateLogFiles N flt fs).2 = some RotErr.createFailed) ∧
      (flt.openErr = false → flt.createErr = false → flt.writeErr = true →
        (rotateLogFiles N flt fs).2 = some RotErr.writeFailed)) := by
  have hlog_pres : shiftLogs fs (N - 2) FName.log = fs FName.log :=
    shiftLogs_preserves FName.log (fun i _ => by simp) (N - 2) fs
  refine ⟨?_, ?_, ?_, ?_, ?_, ?_, ?_⟩
  · intro j h2 hj
    exact (shiftLogs_gz (N - 2) fs).2.1 j h2 hj
  · exact (shiftLogs_gz (N - 2) fs).2.2.2.1 (by omega)
  · intro j hj
    exact (shiftLogs_gz (N - 2) fs).1 j (by omega)
  · rw [show N - 1 = N - 2 + 1 from by omega]
    exact (shiftLogs_gz (N - 2) fs).2.2.1 (by omega)
  · intro hl
    simp [rotateLogFiles, hlog_pres, hl]
  · intro b hl hflt
    subst hflt
    have hrw : rotateLogFiles N noRotFaults fs =
        (fsSet (shiftLogs fs (N - 2)) (FName.gz 1)
          (some (FileData.gzipped (FileData.plain b))), none) := by
      simp [rotateLogFiles, hlog_pres, hl, noRotFaults]
    refine ⟨by rw [hrw], by rw [hrw]; simp [fsSet], ?_⟩
    intro n hn
    rw [hrw]
    simp [fsSet, hn]
  · intro hne
    cases hv : fs FName.log with
    | none => exact absurd hv hne
    | some d =>
      refine ⟨fun ho => ?_, fun ho hc => ?_, fun ho hc hw => ?_⟩
      · simp [rotateLogFiles, hlog_pres, hv, ho]
      · simp [rotateLogFiles, hlog_pres, hv, ho, hc]
      · simp [rotateLogFiles, hlog_pres, hv, ho, hc, hw]

/-- C5 witness: a concrete depth-4 rotation with three existing
generations and a current log: slot 2 receives old slot 1, rotation
succeeds, and generation 1 holds the compressed current log. -/
theorem C5_rotation_algorithm_witness :
    shiftLogs fsFull 2 (FName.gz 2) = fsFull (FName.gz 1) ∧
    (rotateLogFiles 4 noRotFaults fsFull).2 = none ∧
    (rotateLogFiles 4 noRotFaults fsFull).1 (FName.gz 1) =
      some (FileData.gzipped (FileData.plain [1])) :=
  ⟨(C5_rotation_algorithm 4 noRotFaults fsFull (by omega)).1 2 (by omega) (by omega),
   ((C5_rotation_algorithm 4 noRotFaults fsFull (by omega)).2.2.2.2.2.1 [1] rfl rfl).1,
   ((C5_rotation_algorithm 4 noRotFaults fsFull (by omega)).2.2.2.2.2.1 [1] rfl rfl).2.1⟩

/-! ## Claim C6: rotation round trip -/

/-- C6: if the current log holds exactly the bytes b and no compressed
generation exists, then after one fault-free rotation generation 1
exists, decompresses to exactly b, rotation reports no error, and
creating a fresh current log afterwards succeeds (the old log does not
block it — `os.Create` truncates). -/
theorem C6_rotation_roundtrip (N : Nat) (b : List Nat) (fs : FS)
    (hlog : fs FName.log = some (FileData.plain b))
    (_hnogen : ∀ i, 1 ≤ i → fs (FName.gz i) = none) :
    (rotateLogFiles N noRotFaults fs).2 = none ∧
    (rotateLogFiles N noRotFaults fs).1 (FName.gz 1) =
      some (FileData.gzipped (FileData.plain b)) ∧
    ((rotateLogFiles N noRotFaults fs).1 (FName.gz 1)).bind gunzipData =
      some (FileData.plain b) ∧
    osCreate FName.log false ((rotateLogFiles N noRotFaults fs).1) =
      some (fsSet ((rotateLogFiles N noRotFaults fs).1) FName.log
        (some (FileData.plain []))) := by
  have hlog_pres : shiftLogs fs (N - 2) FName.log = fs FName.log :=
    shiftLogs_preserves FName.log (fun i _ => by simp) (N - 2) fs
  have hrw : rotateLogFiles N noRotFaults fs =
      (fsSet (shiftLogs fs (N - 2)) (FName.gz 1)
        (some (FileData.gzipped (FileData.plain b))), none) := by
    simp [rotateLogFiles, hlog_pres, hlog, noRotFaults]
  refine ⟨by rw [hrw], by rw [hrw]; simp [fsSet], by rw [hrw]; simp [fsSet, gunzipData],
    by simp [osCreate]⟩

/-- C6 witness: a filesystem holding only a current log with bytes
7, 8 rotates with no error, and generation 1 decompresses to exactly
those bytes. -/
theorem C6_rotation_roundtrip_witness :
    (rotateLogFiles 5 noRotFaults fsLogOnly).2 = none ∧
    ((rotateLogFiles 5 noRotFaults fsLogOnly).1 (FName.gz 1)).bind gunzipData =
      some (FileData.plain [7, 8]) :=
  ⟨(C6_rotation_roundtrip 5 [7, 8] fsLogOnly rfl (fun _ _ => rfl)).1,
   (C6_rotation_roundtrip 5 [7, 8] fsLogOnly rfl (fun _ _ => rfl)).2.2.1⟩

end DuplicacyUtil
